import Mathlib

/-!
Verification of the `journal` package (go-systemd): the wire-protocol
encoder for journald entries and the datagram-transport fallback path in
`src/journal/send.go`.

Modelling conventions:
- A Go string is a sequence of runes, embedded as `List Char` (`GoStr`);
  valid UTF-8 is assumed, matching strings produced by Go source literals
  and callers.  `range` over a Go string iterates runes, which `List Char`
  models directly; Go `len` of a string counts UTF-8 bytes, modelled by
  `goLen`.
- Wire buffers are byte sequences, embedded as `List Nat` with every
  element a byte value; `utf8Str` encodes a rune sequence to its bytes.
- The kernel-facing operations of `Send` (the datagram write, `tempFd`,
  the copy into the staging file, the `*net.UnixConn` type assertion and
  `WriteMsgUnix`) are not pure code; their outcomes are supplied by a
  `SendEnv` record, and `Send` is the source's control flow over those
  outcomes.  Go errors are embedded as `GoErr` records carrying exactly
  what the source inspects: whether the error is a `*net.OpError`, which
  `syscall.Errno` it wraps (if any), and its `Error()` text.
- A Go panic (the source indexes `name[0]` without a guard) is embedded
  as `Option`: `none` means the operation panics instead of returning.
-/

namespace Journal

/-- Go string, as its sequence of runes. -/
abbrev GoStr := List Char

/-- UTF-8 encoding of one rune, as its list of byte values.  Mirrors the
standard UTF-8 layout used by Go strings. -/
def utf8Encode (c : Char) : List Nat :=
  let n := c.toNat
  if n < 128 then [n]
  else if n < 2048 then [192 + n / 64, 128 + n % 64]
  else if n < 65536 then [224 + n / 4096, 128 + n / 64 % 64, 128 + n % 64]
  else [240 + n / 262144, 128 + n / 4096 % 64, 128 + n / 64 % 64, 128 + n % 64]

/-- Byte sequence of a Go string (UTF-8). -/
def utf8Str (s : GoStr) : List Nat :=
  (s.map utf8Encode).flatten

/-- Go `len` of a string: its byte length. -/
def goLen (s : GoStr) : Nat :=
  (utf8Str s).length

/-- Go `strings.ContainsRune`. -/
def containsRune (s : GoStr) (r : Char) : Bool :=
  s.any (fun c => c == r)

/-- Decimal digit character, used to render integers the way
`strconv.Itoa` does. -/
def digitChar (d : Nat) : Char :=
  match d with
  | 0 => '0' | 1 => '1' | 2 => '2' | 3 => '3' | 4 => '4'
  | 5 => '5' | 6 => '6' | 7 => '7' | 8 => '8' | _ => '9'

/-- Decimal rendering worker, structurally recursive on a fuel bound so
that it reduces inside the kernel; `fuel ≥ n + 1` always exceeds the
digit count, so the fuel never runs out when called through
`natToDec`. -/
def natToDecAux : Nat → Nat → GoStr
  | 0, _ => []
  | fuel + 1, n =>
    if n < 10 then [digitChar n]
    else natToDecAux fuel (n / 10) ++ [digitChar (n % 10)]

/-- Decimal rendering of a natural number, most significant digit first
(no sign, no leading zeros for positive numbers), as `strconv.Itoa`
produces for non-negative input. -/
def natToDec (n : Nat) : GoStr := natToDecAux (n + 1) n

/-- Go `strconv.Itoa`: decimal text of an integer, with a leading minus
sign for negative values. -/
def itoa (i : Int) : GoStr :=
  if i < 0 then '-' :: natToDec i.natAbs else natToDec i.toNat

/-- Priority levels from the source: `PriEmerg Priority = iota` through
`PriDebug`, values 0 to 7. -/
def PriEmerg : Int := 0

/-- Priority level `PriAlert`. -/
def PriAlert : Int := 1

/-- Priority level `PriCrit`. -/
def PriCrit : Int := 2

/-- Priority level `PriErr`. -/
def PriErr : Int := 3

/-- Priority level `PriWarning`. -/
def PriWarning : Int := 4

/-- Priority level `PriNotice`. -/
def PriNotice : Int := 5

/-- Priority level `PriInfo`. -/
def PriInfo : Int := 6

/-- Priority level `PriDebug`. -/
def PriDebug : Int := 7

/-- Embedding of `func validVarName(name string) bool` from
`src/journal/send.go`.  `none` models the Go panic: the source reads
`name[0]` with no non-emptiness guard, which is an index-out-of-range
runtime panic on the empty string.  `name[0]` in Go is the first BYTE of
the string, modelled as the first byte of the first rune's UTF-8 form;
95 is the byte for an underscore.  The per-rune update keeps the exact
grouping of the source expression
`valid && ('A' <= c && c <= 'Z') || ('0' <= c && c <= '9') || c == '_'`:
Go's `&&` binds tighter than `||`, exactly as in Lean, so the whole
expression is `(valid && upper) || digit || underscore`.  65..90 are the
code points of `A`..`Z` and 48..57 those of `0`..`9`. -/
def validVarName : GoStr → Option Bool
  | [] => none
  | c0 :: rest =>
    let b0 := (utf8Encode c0).headD 0
    let valid := true
    let valid := valid && !(b0 == 95)
    some ((c0 :: rest).foldl
      (fun valid c =>
        valid && (decide (65 ≤ c.toNat) && decide (c.toNat ≤ 90)) ||
          (decide (48 ≤ c.toNat) && decide (c.toNat ≤ 57)) || c == '_')
      valid)

/-- Validity of a field name as the specification words it: non-empty,
first character not an underscore, and every character an uppercase
letter, a digit, or an underscore.  Stated from the spec's words for
comparison with the source's `validVarName`. -/
def specValidVarName : GoStr → Bool
  | [] => false
  | c0 :: rest =>
    !(c0 == '_') &&
      (c0 :: rest).all (fun c =>
        (decide (65 ≤ c.toNat) && decide (c.toNat ≤ 90)) ||
          (decide (48 ≤ c.toNat) && decide (c.toNat ≤ 57)) || c == '_')

/-- Embedding of `func toBytes(n uint64) []byte`: 8 bytes, little
endian; `b[i] = byte(n >> uint(i*8))`. -/
def toBytes (n : Nat) : List Nat :=
  (List.range 8).map (fun i => n / 2 ^ (i * 8) % 256)

/-- Value of a byte list read as a little-endian unsigned integer (the
interpretation the spec assigns to the 8 length bytes). -/
def fromLE : List Nat → Nat
  | [] => 0
  | b :: rest => b + 256 * fromLE rest

/-- Byte framing `appendVariable` produces for one name/value pair
(the part of the source's `appendVariable` that writes to the buffer).
With a newline in the value: `fmt.Fprintln(w, name)`, then
`w.Write(toBytes(uint64(len(value))))`, then `fmt.Fprintln(w, value)`.
Otherwise: `fmt.Fprintf(w, "%s=%s\n", name, value)`.  Byte 10 is the
newline and byte 61 the equals sign; `% 2 ^ 64` is the `uint64`
conversion of `len(value)`. -/
def frameVar (name value : GoStr) : List Nat :=
  if containsRune value '\n' then
    utf8Str name ++ [10] ++ toBytes (goLen value % 2 ^ 64) ++ utf8Str value ++ [10]
  else
    utf8Str name ++ [61] ++ utf8Str value ++ [10]

/-- Fixed text `journalError` prepends, and which it writes to stderr. -/
def journalErrorMsg (s : GoStr) : GoStr :=
  ("journal error: ").data ++ s

/-- Diagnostic text of `appendVariable` for an invalid name. -/
def invalidNameText : GoStr :=
  ("variable name contains invalid character, ignoring").data

/-- Diagnostic text of `Send` when the connection is absent. -/
def notConnectedText : GoStr :=
  ("could not connect to journald socket").data

/-- ASCII apostrophe (code point 39), the quote character appearing in
the source's non-Unix-connection diagnostic text. -/
def apos : Char := Char.ofNat 39

/-- Diagnostic text of `Send` when the connection is not a
`*net.UnixConn` (the source text contains an apostrophe). -/
def nonUnixText : GoStr :=
  ("can").data ++ [apos] ++ ("t send file through non-Unix connection").data

/-- Embedding of `func appendVariable(w io.Writer, name, value string)`.
The result pairs the bytes written to the buffer with the diagnostics
printed to stderr; `none` is the panic `validVarName` raises on an empty
name.  An invalid name only adds a diagnostic — the framing is written
unconditionally afterwards. -/
def appendVariable (name value : GoStr) : Option (List Nat × List GoStr) :=
  match validVarName name with
  | none => none
  | some valid =>
    some (frameVar name value,
      if valid then [] else [journalErrorMsg invalidNameText])

/-- Sequential encoding of the caller-supplied fields, in the order the
Go `range vars` loop happens to visit the map. -/
def appendVars : List (GoStr × GoStr) → Option (List Nat × List GoStr)
  | [] => some ([], [])
  | (k, v) :: rest => do
    let (b, d) ← appendVariable k v
    let (bs, ds) ← appendVars rest
    pure (b ++ bs, d ++ ds)

/-- Entry encoding from the body of `Send`: `PRIORITY` with
`strconv.Itoa(int(priority))`, then `MESSAGE` with the message, then the
caller-supplied fields in iteration order. -/
def encodeEntry (message : GoStr) (priority : Int)
    (vars : List (GoStr × GoStr)) : Option (List Nat × List GoStr) := do
  let (b1, d1) ← appendVariable (("PRIORITY").data) (itoa priority)
  let (b2, d2) ← appendVariable (("MESSAGE").data) message
  let (bs, ds) ← appendVars vars
  pure (b1 ++ b2 ++ bs, d1 ++ d2 ++ ds)

/-- Linux errno value `syscall.EMSGSIZE`. -/
def EMSGSIZE : Nat := 90

/-- Linux errno value `syscall.ENOBUFS`. -/
def ENOBUFS : Nat := 105

/-- Go error value, carrying exactly what `Send` and
`isSocketSpaceError` inspect: whether it is a `*net.OpError`, the
`syscall.Errno` it wraps (when the wrapped error is an `Errno`), and the
text its `Error()` method yields. -/
structure GoErr where
  isOpError : Bool
  errno : Option Nat
  msg : GoStr
  deriving DecidableEq

/-- Embedding of `func isSocketSpaceError(err error) bool`: true exactly
when the error is a `*net.OpError` wrapping a `syscall.Errno` equal to
`EMSGSIZE` or `ENOBUFS`. -/
def isSocketSpaceError (err : GoErr) : Bool :=
  if err.isOpError = false then false
  else
    match err.errno with
    | none => false
    | some sysErr => sysErr == EMSGSIZE || sysErr == ENOBUFS

/-- Outcomes of the kernel-facing operations `Send` performs, supplied
as an environment: whether the process-wide `conn` is non-nil, the error
(if any) of the direct `io.Copy(conn, data)`, of `tempFd()`, of the copy
into the staging file, whether the `conn.(*net.UnixConn)` type assertion
holds, and the error (if any) of `WriteMsgUnix`. -/
structure SendEnv where
  connected : Bool
  directErr : Option GoErr
  tempFdErr : Option GoErr
  fileCopyErr : Option GoErr
  connIsUnix : Bool
  writeMsgErr : Option GoErr
  deriving DecidableEq

/-- Observable behaviour of one `Send` call: the returned error text
(`none` is a nil return), the lines printed to stderr in order, the
bytes offered to the direct datagram write, whether the direct write
delivered, whether the fallback was entered (`tempFd` invoked), the
bytes written into the staging file, whether the zero-length
descriptor-carrying datagram was issued, and whether any socket
operation was attempted at all. -/
structure SendOutcome where
  ret : Option GoStr
  stderr : List GoStr
  directPayload : Option (List Nat)
  deliveredDirect : Bool
  fallbackTaken : Bool
  staged : Option (List Nat)
  fdSent : Bool
  socketTouched : Bool
  deriving DecidableEq

/-- Transport part of `Send` (source lines 55-76), given the encoded
buffer.  The staged bytes equal the whole buffer: `io.Copy(conn, data)`
delegates to `bytes.Buffer.WriteTo`, which advances the buffer's read
offset only by the byte count the writer reports, and a failed datagram
write reports zero bytes, so the fallback's `io.Copy(file, data)` still
sees the entire encoding.  The error of `WriteMsgUnix` is discarded by
the source, so `writeMsgErr` influences nothing here. -/
def sendTransport (env : SendEnv) (buf : List Nat) : SendOutcome :=
  match env.directErr with
  | none =>
    { ret := none, stderr := [], directPayload := some buf,
      deliveredDirect := true, fallbackTaken := false, staged := none,
      fdSent := false, socketTouched := true }
  | some err =>
    if isSocketSpaceError err then
      match env.tempFdErr with
      | some e =>
        { ret := some (journalErrorMsg e.msg),
          stderr := [journalErrorMsg e.msg], directPayload := some buf,
          deliveredDirect := false, fallbackTaken := true, staged := none,
          fdSent := false, socketTouched := true }
      | none =>
        match env.fileCopyErr with
        | some e =>
          { ret := some (journalErrorMsg e.msg),
            stderr := [journalErrorMsg e.msg], directPayload := some buf,
            deliveredDirect := false, fallbackTaken := true, staged := none,
            fdSent := false, socketTouched := true }
        | none =>
          if env.connIsUnix = false then
            { ret := some (journalErrorMsg nonUnixText),
              stderr := [journalErrorMsg nonUnixText],
              directPayload := some buf, deliveredDirect := false,
              fallbackTaken := true, staged := some buf, fdSent := false,
              socketTouched := true }
          else
            { ret := none, stderr := [], directPayload := some buf,
              deliveredDirect := false, fallbackTaken := true,
              staged := some buf, fdSent := true, socketTouched := true }
    else
      { ret := some (journalErrorMsg err.msg),
        stderr := [journalErrorMsg err.msg], directPayload := some buf,
        deliveredDirect := false, fallbackTaken := false, staged := none,
        fdSent := false, socketTouched := true }

/-- Embedding of `func Send(message string, priority Priority, vars
map[string]string) error`.  The nil-connection check runs before any
encoding; `none` is the panic an empty field name raises inside the
encoding loop. -/
def Send (env : SendEnv) (message : GoStr) (priority : Int)
    (vars : List (GoStr × GoStr)) : Option SendOutcome :=
  match env.connected with
  | false =>
    some { ret := some (journalErrorMsg notConnectedText),
           stderr := [journalErrorMsg notConnectedText],
           directPayload := none, deliveredDirect := false,
           fallbackTaken := false, staged := none, fdSent := false,
           socketTouched := false }
  | true =>
    match encodeEntry message priority vars with
    | none => none
    | some (buf, diags) =>
      let o := sendTransport env buf
      some { o with stderr := diags ++ o.stderr }

/-- Embedding of `func Enabled() bool`: `conn != nil`, with the
connection's presence as the argument. -/
def Enabled (connected : Bool) : Bool := connected

/-- Diagnostics `appendVariable` prints for a given name: nothing for a
valid name, the invalid-name line otherwise.  Empty for the empty name,
whose check panics before anything is printed. -/
def diagOf (name : GoStr) : List GoStr :=
  match validVarName name with
  | none => []
  | some valid => if valid then [] else [journalErrorMsg invalidNameText]

/-- Environment in which the initial dial failed and no connection
exists. -/
def envNoConn : SendEnv := ⟨false, none, none, none, false, none⟩

/-- Outcome of any `Send` call made without a connection. -/
def outNoConn : SendOutcome :=
  { ret := some (journalErrorMsg notConnectedText),
    stderr := [journalErrorMsg notConnectedText], directPayload := none,
    deliveredDirect := false, fallbackTaken := false, staged := none,
    fdSent := false, socketTouched := false }

/-- Environment in which the direct write overflows (EMSGSIZE inside a
`*net.OpError`), the staging file is created and written successfully,
the connection is a `*net.UnixConn`, and the ancillary-descriptor write
itself fails. -/
def envSwallow : SendEnv :=
  ⟨true, some ⟨true, some 90, ("message too long").data⟩, none, none, true,
    some ⟨true, some 111, ("connection refused").data⟩⟩

/-! ## Helper lemmas -/

/-- The little-endian reading of `toBytes n` recovers `n` reduced
modulo 2^64. -/
theorem fromLE_toBytes (n : Nat) : fromLE (toBytes n) = n % 2 ^ 64 := by
  have h8 : List.range 8 = [0, 1, 2, 3, 4, 5, 6, 7] := rfl
  simp only [toBytes, h8, List.map_cons, List.map_nil, fromLE]
  norm_num
  omega

/-- Decimal digit characters are never the newline character. -/
theorem digitChar_ne_nl (d : Nat) : (digitChar d == '\n') = false := by
  rcases d with _ | _ | _ | _ | _ | _ | _ | _ | _ | d <;> rfl

/-- Decimal renderings of naturals contain no newline, whatever the
fuel. -/
theorem natToDecAux_no_nl (fuel n : Nat) :
    containsRune (natToDecAux fuel n) '\n' = false := by
  induction fuel generalizing n with
  | zero => rfl
  | succ fuel ih =>
    unfold natToDecAux
    split
    · simp [containsRune, digitChar_ne_nl]
    · have h1 := ih (n / 10)
      simp only [containsRune, List.any_append, List.any_cons,
        List.any_nil] at h1 ⊢
      simp [h1, digitChar_ne_nl]

/-- Decimal renderings of naturals contain no newline. -/
theorem natToDec_no_nl (n : Nat) : containsRune (natToDec n) '\n' = false :=
  natToDecAux_no_nl (n + 1) n

/-- Output of `itoa` contains no newline. -/
theorem itoa_no_nl (i : Int) : containsRune (itoa i) '\n' = false := by
  unfold itoa
  split
  · have h1 := natToDec_no_nl i.natAbs
    simp only [containsRune, List.any_cons] at h1 ⊢
    simp [h1]
  · exact natToDec_no_nl _

/-- UTF-8 encoding distributes over append. -/
theorem utf8Str_append (a b : GoStr) :
    utf8Str (a ++ b) = utf8Str a ++ utf8Str b := by
  simp [utf8Str]

/-- UTF-8 encoding of a cons. -/
theorem utf8Str_cons (c : Char) (s : GoStr) :
    utf8Str (c :: s) = utf8Encode c ++ utf8Str s := by
  simp [utf8Str]

/-- UTF-8 encoding of the empty string. -/
theorem utf8Str_nil : utf8Str [] = [] := rfl

/-- On a non-empty name, `appendVariable` returns the framing together
with the name's diagnostics. -/
theorem appendVariable_cons (c : Char) (cs : GoStr) (v : GoStr) :
    appendVariable (c :: cs) v =
      some (frameVar (c :: cs) v, diagOf (c :: cs)) := rfl

/-- Encoding of the `PRIORITY` field produces the framing and no
diagnostics. -/
theorem appendVariable_PRIORITY (p : Int) :
    appendVariable (("PRIORITY").data) (itoa p) =
      some (frameVar (("PRIORITY").data) (itoa p), []) := by
  have h : validVarName (("PRIORITY").data) = some true := by decide
  simp [appendVariable, h]

/-- Encoding of the `MESSAGE` field produces the framing and no
diagnostics, for every message. -/
theorem appendVariable_MESSAGE (m : GoStr) :
    appendVariable (("MESSAGE").data) m =
      some (frameVar (("MESSAGE").data) m, []) := by
  have h : validVarName (("MESSAGE").data) = some true := by decide
  simp [appendVariable, h]

/-- Framing of a value without newlines is the single protocol line
`name=value` followed by a newline, in UTF-8 bytes. -/
theorem frameVar_no_nl (name value : GoStr)
    (h : containsRune value '\n' = false) :
    frameVar name value = utf8Str (name ++ '=' :: value ++ ['\n']) := by
  have h61 : utf8Encode '=' = [61] := by decide
  have h10 : utf8Encode '\n' = [10] := by decide
  simp [frameVar, h, utf8Str_append, utf8Str, h61, h10]

/-- The `isSocketSpaceError` check holds exactly for `*net.OpError`
values wrapping errno `EMSGSIZE` or `ENOBUFS`. -/
theorem isSocketSpaceError_iff (e : GoErr) :
    isSocketSpaceError e = true ↔
      (e.isOpError = true ∧
        (e.errno = some EMSGSIZE ∨ e.errno = some ENOBUFS)) := by
  obtain ⟨op, en, m⟩ := e
  cases op
  · simp [isSocketSpaceError]
  · cases en with
    | none => simp [isSocketSpaceError]
    | some k => simp [isSocketSpaceError, EMSGSIZE, ENOBUFS]

/-- Under an all-nonempty-names hypothesis, `appendVars` concatenates
the per-field framings. -/
theorem appendVars_frames (l : List (GoStr × GoStr))
    (h : ∀ kv ∈ l, kv.1 ≠ []) :
    ∃ ds, appendVars l =
      some ((l.map (fun kv => frameVar kv.1 kv.2)).flatten, ds) := by
  induction l with
  | nil => exact ⟨[], rfl⟩
  | cons kv rest ih =>
    obtain ⟨k, v⟩ := kv
    have hk : k ≠ [] := h (k, v) (by simp)
    obtain ⟨c, cs, rfl⟩ : ∃ c cs, k = c :: cs := by
      cases k with
      | nil => exact absurd rfl hk
      | cons c cs => exact ⟨c, cs, rfl⟩
    obtain ⟨ds, hds⟩ := ih (fun kv hkv => h kv (by simp [hkv]))
    refine ⟨diagOf (c :: cs) ++ ds, ?_⟩
    simp [appendVars, appendVariable_cons, hds]

/-! ## Claims -/

/-- C3: the claim says the validity check returns true iff the name is
non-empty, starts with a non-underscore, and uses only `A`-`Z`, `0`-`9`
and underscore.  The source's own comment states the same rule, but the
expression `valid && upper || digit || underscore` groups as
`(valid && upper) || digit || underscore`, so any digit or underscore
late in the name resets validity: `a1` and `_SECRET` both pass the
check although the rule (here `specValidVarName`) rejects them. -/
theorem c3_validVarName_precedence_bug :
    validVarName (("a1").data) = some true ∧
    specValidVarName (("a1").data) = false ∧
    validVarName (("_SECRET").data) = some true ∧
    specValidVarName (("_SECRET").data) = false := by
  decide

/-- C5: an empty field name makes the validity check read `name[0]`
without a guard, a Go index-out-of-range panic; `Send` with an
empty-named field therefore panics (result `none`) instead of printing
a diagnostic or returning an error, for every connected environment,
message, priority, value and remaining field list. -/
theorem c5_empty_name_panics (value msg : GoStr) (p : Int)
    (de te fe : Option GoErr) (cu : Bool) (we : Option GoErr)
    (rest : List (GoStr × GoStr)) :
    validVarName [] = none ∧
    appendVariable [] value = none ∧
    Send ⟨true, de, te, fe, cu, we⟩ msg p (([], value) :: rest) = none :=
  ⟨rfl, rfl, rfl⟩

/-- C10: with the process-wide connection absent, `Enabled` reports
false and every `Send` call returns the prefixed not-connected error at
once — the outcome carries no direct payload, touches no socket, and is
produced for every field list (even ones whose encoding would panic),
showing no encoding was attempted. -/
theorem c10_not_connected (de te fe : Option GoErr) (cu : Bool)
    (we : Option GoErr) (msg : GoStr) (p : Int)
    (vars : List (GoStr × GoStr)) :
    Enabled false = false ∧
    Send ⟨false, de, te, fe, cu, we⟩ msg p vars =
      some { ret := some (journalErrorMsg notConnectedText),
             stderr := [journalErrorMsg notConnectedText],
             directPayload := none, deliveredDirect := false,
             fallbackTaken := false, staged := none, fdSent := false,
             socketTouched := false } :=
  ⟨rfl, rfl⟩

/-- C6 counterexample: the claim quantifies over every name, but for the
empty name and a newline-carrying value the encoder panics (`none`)
instead of appending the length-prefixed framing. -/
theorem c6_empty_name_not_framed :
    containsRune (("x\n").data) '\n' = true ∧
    appendVariable [] (("x\n").data) = none := by
  decide

/-- C6 amended: for every NON-EMPTY name and every value containing at
least one newline, the encoder appends the name and a newline, exactly
8 bytes holding the value's byte length as an unsigned 64-bit
little-endian integer (the `uint64` conversion written as `% 2 ^ 64`),
then the value and a newline. -/
theorem c6_amended_newline_value_framing (name value : GoStr)
    (hn : name ≠ []) (hv : containsRune value '\n' = true) :
    (appendVariable name value).map Prod.fst =
      some (utf8Str name ++ [10] ++ toBytes (goLen value % 2 ^ 64) ++
        utf8Str value ++ [10]) ∧
    (toBytes (goLen value % 2 ^ 64)).length = 8 ∧
    fromLE (toBytes (goLen value % 2 ^ 64)) = goLen value % 2 ^ 64 ∧
    (goLen value < 2 ^ 64 →
      fromLE (toBytes (goLen value % 2 ^ 64)) = goLen value) := by
  obtain ⟨c, cs, rfl⟩ : ∃ c cs, name = c :: cs := by
    cases name with
    | nil => exact absurd rfl hn
    | cons c cs => exact ⟨c, cs, rfl⟩
  have hmod : goLen value % 2 ^ 64 < 2 ^ 64 := Nat.mod_lt _ (by norm_num)
  have h1 := fromLE_toBytes (goLen value % 2 ^ 64)
  rw [Nat.mod_eq_of_lt hmod] at h1
  refine ⟨?_, by simp [toBytes], h1, fun hlt => ?_⟩
  · rw [appendVariable_cons]
    simp [frameVar, hv]
  · rw [h1, Nat.mod_eq_of_lt hlt]

/-- C6 amended witness: concrete instance at name `N` and value
`x\n`. -/
theorem c6_amended_newline_value_framing_witness :
    (appendVariable (("N").data) (("x\n").data)).map Prod.fst =
      some (utf8Str (("N").data) ++ [10] ++
        toBytes (goLen (("x\n").data) % 2 ^ 64) ++
        utf8Str (("x\n").data) ++ [10]) ∧
    (toBytes (goLen (("x\n").data) % 2 ^ 64)).length = 8 ∧
    fromLE (toBytes (goLen (("x\n").data) % 2 ^ 64)) =
      goLen (("x\n").data) % 2 ^ 64 ∧
    fromLE (toBytes (goLen (("x\n").data) % 2 ^ 64)) =
      goLen (("x\n").data) :=
  ⟨(c6_amended_newline_value_framing (("N").data) (("x\n").data)
      (by decide) (by decide)).1,
   (c6_amended_newline_value_framing (("N").data) (("x\n").data)
      (by decide) (by decide)).2.1,
   (c6_amended_newline_value_framing (("N").data) (("x\n").data)
      (by decide) (by decide)).2.2.1,
   (c6_amended_newline_value_framing (("N").data) (("x\n").data)
      (by decide) (by decide)).2.2.2 (by decide)⟩

/-- C1: when the direct datagram write fails with an overflow-class
error and the staging file is created and written without error, the
bytes staged are exactly the encoded entry — byte-for-byte the buffer
the direct path attempted to send.  This rests on `bytes.Buffer.WriteTo`
advancing its read offset only by the writer's reported count, which is
zero for a failed datagram write, so the fallback copies the full
encoding. -/
theorem c1_fallback_stages_exact_buffer (env : SendEnv) (msg : GoStr)
    (p : Int) (vars : List (GoStr × GoStr)) (e : GoErr) (b : List Nat)
    (d : List GoStr) (hc : env.connected = true)
    (hd : env.directErr = some e) (hs : isSocketSpaceError e = true)
    (ht : env.tempFdErr = none) (hf : env.fileCopyErr = none)
    (henc : encodeEntry msg p vars = some (b, d)) :
    (Send env msg p vars).map (fun o => (o.staged, o.directPayload)) =
      some (some b, some b) := by
  obtain ⟨c, de, te, fe, cu, we⟩ := env
  dsimp only at hc hd ht hf
  subst hc hd ht hf
  cases cu <;> simp [Send, henc, sendTransport, hs]

/-- C1 witness: concrete overflow environment, empty field map. -/
theorem c1_fallback_stages_exact_buffer_witness :
    (Send ⟨true, some ⟨true, some 90, []⟩, none, none, true, none⟩
        (("m").data) 6 []).map (fun o => (o.staged, o.directPayload)) =
      some
        (some (frameVar (("PRIORITY").data) (itoa 6) ++
          frameVar (("MESSAGE").data) (("m").data) ++ []),
         some (frameVar (("PRIORITY").data) (itoa 6) ++
          frameVar (("MESSAGE").data) (("m").data) ++ [])) :=
  c1_fallback_stages_exact_buffer
    ⟨true, some ⟨true, some 90, []⟩, none, none, true, none⟩
    (("m").data) 6 [] ⟨true, some 90, []⟩
    (frameVar (("PRIORITY").data) (itoa 6) ++
      frameVar (("MESSAGE").data) (("m").data) ++ [])
    ([] ++ [] ++ []) rfl rfl (by decide) rfl rfl (by decide)

/-- C8: the fallback (staged-file) path is entered exactly when the
direct write's error is a `*net.OpError` wrapping errno `EMSGSIZE` or
`ENOBUFS`; for every other direct-write error, `Send` prints and
returns the prefixed error, stages nothing, sends no descriptor, and
does not retry. -/
theorem c8_fallback_iff_overflow_error (env : SendEnv) (buf : List Nat)
    (e : GoErr) (hd : env.directErr = some e) :
    ((sendTransport env buf).fallbackTaken = true ↔
      (e.isOpError = true ∧
        (e.errno = some EMSGSIZE ∨ e.errno = some ENOBUFS))) ∧
    (isSocketSpaceError e = false →
      (sendTransport env buf).ret = some (journalErrorMsg e.msg) ∧
      (sendTransport env buf).fallbackTaken = false ∧
      (sendTransport env buf).staged = none ∧
      (sendTransport env buf).fdSent = false ∧
      (sendTransport env buf).deliveredDirect = false) := by
  obtain ⟨c, de, te, fe, cu, we⟩ := env
  dsimp only at hd
  subst hd
  constructor
  · rw [← isSocketSpaceError_iff]
    cases hs : isSocketSpaceError e
    · simp [sendTransport, hs]
    · cases te <;> cases fe <;> cases cu <;> simp [sendTransport, hs]
  · intro hs
    simp [sendTransport, hs]

/-- C8 witness: a plain (non-OpError) direct-write failure is returned,
and the fallback is not entered. -/
theorem c8_fallback_iff_overflow_error_witness :
    ((sendTransport ⟨true, some ⟨false, none, ("broken pipe").data⟩, none,
        none, true, none⟩ [7]).fallbackTaken = true ↔
      ((⟨false, none, ("broken pipe").data⟩ : GoErr).isOpError = true ∧
        ((⟨false, none, ("broken pipe").data⟩ : GoErr).errno = some EMSGSIZE ∨
         (⟨false, none, ("broken pipe").data⟩ : GoErr).errno = some ENOBUFS))) ∧
    ((sendTransport ⟨true, some ⟨false, none, ("broken pipe").data⟩, none,
          none, true, none⟩ [7]).ret =
        some (journalErrorMsg (⟨false, none,
          ("broken pipe").data⟩ : GoErr).msg) ∧
      (sendTransport ⟨true, some ⟨false, none, ("broken pipe").data⟩, none,
          none, true, none⟩ [7]).fallbackTaken = false ∧
      (sendTransport ⟨true, some ⟨false, none, ("broken pipe").data⟩, none,
          none, true, none⟩ [7]).staged = none ∧
      (sendTransport ⟨true, some ⟨false, none, ("broken pipe").data⟩, none,
          none, true, none⟩ [7]).fdSent = false ∧
      (sendTransport ⟨true, some ⟨false, none, ("broken pipe").data⟩, none,
          none, true, none⟩ [7]).deliveredDirect = false) :=
  ⟨(c8_fallback_iff_overflow_error
      ⟨true, some ⟨false, none, ("broken pipe").data⟩, none, none, true,
        none⟩ [7] ⟨false, none, ("broken pipe").data⟩ rfl).1,
   (c8_fallback_iff_overflow_error
      ⟨true, some ⟨false, none, ("broken pipe").data⟩, none, none, true,
        none⟩ [7] ⟨false, none, ("broken pipe").data⟩ rfl).2 (by decide)⟩

/-- C2 counterexample: with an overflow on the direct write, a healthy
staging path and a failing ancillary-descriptor write (`writeMsgErr`
non-nil), `Send` still returns nil and prints nothing: the source
discards the result of `WriteMsgUnix`, so this failure is neither
written to stderr nor returned, refuting the claim that every failure
during the send is reported and returned and that nil implies
successful delivery. -/
theorem c2_writemsg_error_swallowed :
    envSwallow.writeMsgErr ≠ none ∧
    (Send envSwallow (("m").data) 6 []).map SendOutcome.ret = some none ∧
    (Send envSwallow (("m").data) 6 []).map SendOutcome.stderr =
      some [] ∧
    (Send envSwallow (("m").data) 6 []).map SendOutcome.fdSent =
      some true := by
  decide

/-- C2 amended: every failure `Send` inspects — the not-connected
check, a non-overflow direct-write error, a staging-file creation or
write error, and the non-Unix-connection check — is both printed to
stderr with the fixed prefix `journal error: ` and returned with the
same text, and `Send` returns nil exactly when the direct write
succeeded or the fallback reached the ancillary-descriptor write,
whose own error the code discards. -/
theorem c2_amended_error_propagation (env : SendEnv) (msg : GoStr)
    (p : Int) (vars : List (GoStr × GoStr)) (o : SendOutcome)
    (h : Send env msg p vars = some o) :
    (o.ret = none ↔
      (env.connected = true ∧
        (env.directErr = none ∨
          ∃ e, env.directErr = some e ∧ isSocketSpaceError e = true ∧
            env.tempFdErr = none ∧ env.fileCopyErr = none ∧
            env.connIsUnix = true))) ∧
    (∀ s, o.ret = some s →
      (∃ t, s = journalErrorMsg t) ∧ s ∈ o.stderr) := by
  obtain ⟨c, de, te, fe, cu, we⟩ := env
  cases c
  · simp only [Send, Option.some.injEq] at h
    subst h
    constructor
    · simp
    · intro s hs
      simp only [Option.some.injEq] at hs
      subst hs
      exact ⟨⟨notConnectedText, rfl⟩, by simp⟩
  · simp only [Send] at h
    cases henc : encodeEntry msg p vars with
    | none => rw [henc] at h; exact absurd h (by simp)
    | some r =>
      obtain ⟨buf, diags⟩ := r
      rw [henc] at h
      simp only [Option.some.injEq] at h
      subst h
      cases de with
      | none =>
        constructor
        · simp [sendTransport]
        · intro s hs
          simp [sendTransport] at hs
      | some e =>
        cases hs : isSocketSpaceError e with
        | false =>
          constructor
          · simp only [sendTransport, hs]
            simp [hs]
          · intro s hsome
            simp only [sendTransport, hs] at hsome ⊢
            simp only [Bool.false_eq_true, if_false,
              Option.some.injEq] at hsome
            subst hsome
            exact ⟨⟨e.msg, rfl⟩, by simp⟩
        | true =>
          cases te with
          | some e2 =>
            constructor
            · simp [sendTransport, hs]
            · intro s hsome
              simp only [sendTransport, hs, if_true] at hsome ⊢
              simp only [Option.some.injEq] at hsome
              subst hsome
              exact ⟨⟨e2.msg, rfl⟩, by simp⟩
          | none =>
            cases fe with
            | some e3 =>
              constructor
              · simp [sendTransport, hs]
              · intro s hsome
                simp only [sendTransport, hs, if_true] at hsome ⊢
                simp only [Option.some.injEq] at hsome
                subst hsome
                exact ⟨⟨e3.msg, rfl⟩, by simp⟩
            | none =>
              cases cu
              · constructor
                · simp [sendTransport, hs]
                · intro s hsome
                  simp only [sendTransport, hs, if_true] at hsome ⊢
                  simp only [Option.some.injEq] at hsome
                  subst hsome
                  exact ⟨⟨nonUnixText, rfl⟩, by simp⟩
              · constructor
                · simp only [sendTransport, hs]
                  simp [hs]
                · intro s hsome
                  simp [sendTransport, hs] at hsome

/-- C2 amended witness: instance at the not-connected environment. -/
theorem c2_amended_error_propagation_witness :
    (outNoConn.ret = none ↔
      (envNoConn.connected = true ∧
        (envNoConn.directErr = none ∨
          ∃ e, envNoConn.directErr = some e ∧
            isSocketSpaceError e = true ∧ envNoConn.tempFdErr = none ∧
            envNoConn.fileCopyErr = none ∧
            envNoConn.connIsUnix = true))) ∧
    ((∃ t, journalErrorMsg notConnectedText = journalErrorMsg t) ∧
      journalErrorMsg notConnectedText ∈ outNoConn.stderr) :=
  ⟨(c2_amended_error_propagation envNoConn (("m").data) 6 [] outNoConn
      rfl).1,
   (c2_amended_error_propagation envNoConn (("m").data) 6 [] outNoConn
      rfl).2 (journalErrorMsg notConnectedText) rfl⟩

/-- C7: for every message without newlines, every priority and every
field list, the encoded buffer starts with the `PRIORITY=` line
(priority as decimal text) then the `MESSAGE=` line, before any
caller-supplied field; and the spec's concrete example encodes to
exactly the claimed bytes. -/
theorem c7_header_before_fields (msg : GoStr) (p : Int)
    (vars : List (GoStr × GoStr)) (h : containsRune msg '\n' = false) :
    (encodeEntry msg p vars).map Prod.fst =
      (appendVars vars).map (fun r =>
        utf8Str ((("PRIORITY=").data) ++ itoa p ++ ['\n'] ++
          (("MESSAGE=").data) ++ msg ++ ['\n']) ++ r.1) ∧
    (encodeEntry (("disk full").data) PriErr
        [((("UNIT").data), (("backup.service").data))]).map Prod.fst =
      some (utf8Str
        (("PRIORITY=3\nMESSAGE=disk full\nUNIT=backup.service\n").data)) := by
  constructor
  · have hP := appendVariable_PRIORITY p
    have hM := appendVariable_MESSAGE msg
    have hfp : frameVar (("PRIORITY").data) (itoa p) =
        utf8Str ((("PRIORITY").data) ++ '=' :: itoa p ++ ['\n']) :=
      frameVar_no_nl _ _ (itoa_no_nl p)
    have hfm : frameVar (("MESSAGE").data) msg =
        utf8Str ((("MESSAGE").data) ++ '=' :: msg ++ ['\n']) :=
      frameVar_no_nl _ _ h
    cases hv : appendVars vars with
    | none => simp [encodeEntry, hP, hM, hv]
    | some r =>
      obtain ⟨bs, ds⟩ := r
      simp only [encodeEntry, hP, hM, hv, Option.bind_some, Option.map_some,
        Option.some.injEq]
      rw [hfp, hfm]
      simp [utf8Str_cons, utf8Str_append, utf8Str_nil, List.append_assoc]
  · decide

/-- C7 witness: instance at the spec's example input. -/
theorem c7_header_before_fields_witness :
    (encodeEntry (("disk full").data) 3
        [((("UNIT").data), (("backup.service").data))]).map Prod.fst =
      (appendVars [((("UNIT").data), (("backup.service").data))]).map
        (fun r =>
          utf8Str ((("PRIORITY=").data) ++ itoa 3 ++ ['\n'] ++
            (("MESSAGE=").data) ++ (("disk full").data) ++ ['\n']) ++
          r.1) ∧
    (encodeEntry (("disk full").data) PriErr
        [((("UNIT").data), (("backup.service").data))]).map Prod.fst =
      some (utf8Str
        (("PRIORITY=3\nMESSAGE=disk full\nUNIT=backup.service\n").data)) :=
  c7_header_before_fields (("disk full").data) 3
    [((("UNIT").data), (("backup.service").data))] (by decide)

/-- C9: for every field name for which the validity check fails (a
diagnostic is emitted), the pair is still framed exactly as a valid one
(`frameVar`, the framing used for every name), and with a working
connection the entry is still sent — the buffer delivered contains the
malformed pair and `Send` returns nil, so a malformed name alone never
causes an error return. -/
theorem c9_malformed_name_still_sent (name value : GoStr)
    (h : validVarName name = some false) :
    appendVariable name value =
      some (frameVar name value, [journalErrorMsg invalidNameText]) ∧
    ∀ (msg : GoStr) (p : Int) (te fe : Option GoErr) (cu : Bool)
      (we : Option GoErr),
      ∃ o : SendOutcome,
        Send ⟨true, none, te, fe, cu, we⟩ msg p [(name, value)] =
          some o ∧
        o.ret = none ∧ o.deliveredDirect = true ∧
        o.directPayload =
          some (frameVar (("PRIORITY").data) (itoa p) ++
            frameVar (("MESSAGE").data) msg ++ frameVar name value) ∧
        journalErrorMsg invalidNameText ∈ o.stderr := by
  have ha : appendVariable name value =
      some (frameVar name value, [journalErrorMsg invalidNameText]) := by
    simp [appendVariable, h]
  refine ⟨ha, fun msg p te fe cu we => ?_⟩
  have hP := appendVariable_PRIORITY p
  have hM := appendVariable_MESSAGE msg
  refine ⟨{ ret := none, stderr := [journalErrorMsg invalidNameText],
            directPayload :=
              some (frameVar (("PRIORITY").data) (itoa p) ++
                frameVar (("MESSAGE").data) msg ++ frameVar name value),
            deliveredDirect := true, fallbackTaken := false,
            staged := none, fdSent := false, socketTouched := true },
    ?_, rfl, rfl, rfl, by simp⟩
  simp [Send, encodeEntry, appendVars, hP, hM, ha, sendTransport]

/-- C9 witness: concrete malformed name `BAd` (lowercase letter), whose
check fails, still framed with its diagnostic. -/
theorem c9_malformed_name_still_sent_witness :
    appendVariable (("BAd").data) (("v").data) =
      some (frameVar (("BAd").data) (("v").data),
        [journalErrorMsg invalidNameText]) :=
  (c9_malformed_name_still_sent (("BAd").data) (("v").data) (by decide)).1

/-- C4 counterexample: the two iteration orders of the same two-entry
field map encode to different buffers, so the encoded bytes depend on
the order Go's map `range` happens to produce, which Go leaves
unspecified and randomizes across calls — repeated invocations with the
same input need not produce identical buffers. -/
theorem c4_order_dependent_encoding :
    ([((("A").data), (("1").data)), ((("B").data), (("2").data))] :
        List (GoStr × GoStr)).Perm
      [((("B").data), (("2").data)), ((("A").data), (("1").data))] ∧
    encodeEntry (("m").data) 6
        [((("A").data), (("1").data)), ((("B").data), (("2").data))] ≠
      encodeEntry (("m").data) 6
        [((("B").data), (("2").data)), ((("A").data), (("1").data))] := by
  constructor
  · exact List.Perm.swap _ _ _
  · decide

/-- C4 amended: the encoder is a deterministic function of the message,
the priority and the field ITERATION SEQUENCE — repeated calls that
iterate the map in the same order produce identical buffers — and any
two iteration orders of the same map yield buffers equal to the fixed
`PRIORITY`/`MESSAGE` header followed by the same multiset of per-field
framings, permuted. -/
theorem c4_amended_deterministic_per_order (msg : GoStr) (p : Int)
    (l1 l2 : List (GoStr × GoStr)) (h1 : ∀ kv ∈ l1, kv.1 ≠ [])
    (hperm : l1.Perm l2) :
    (encodeEntry msg p l1).map Prod.fst =
      some (frameVar (("PRIORITY").data) (itoa p) ++
        frameVar (("MESSAGE").data) msg ++
        (l1.map (fun kv => frameVar kv.1 kv.2)).flatten) ∧
    (encodeEntry msg p l2).map Prod.fst =
      some (frameVar (("PRIORITY").data) (itoa p) ++
        frameVar (("MESSAGE").data) msg ++
        (l2.map (fun kv => frameVar kv.1 kv.2)).flatten) ∧
    (l1.map (fun kv => frameVar kv.1 kv.2)).Perm
      (l2.map (fun kv => frameVar kv.1 kv.2)) := by
  have h2 : ∀ kv ∈ l2, kv.1 ≠ [] := fun kv hkv =>
    h1 kv (hperm.mem_iff.mpr hkv)
  have hP := appendVariable_PRIORITY p
  have hM := appendVariable_MESSAGE msg
  obtain ⟨ds1, hv1⟩ := appendVars_frames l1 h1
  obtain ⟨ds2, hv2⟩ := appendVars_frames l2 h2
  refine ⟨?_, ?_, hperm.map _⟩
  · simp [encodeEntry, hP, hM, hv1]
  · simp [encodeEntry, hP, hM, hv2]

/-- C4 amended witness: the two orders of the concrete two-entry map. -/
theorem c4_amended_deterministic_per_order_witness :
    (encodeEntry (("m").data) 6
        [((("A").data), (("1").data)), ((("B").data), (("2").data))]).map
        Prod.fst =
      some (frameVar (("PRIORITY").data) (itoa 6) ++
        frameVar (("MESSAGE").data) (("m").data) ++
        (([((("A").data), (("1").data)),
           ((("B").data), (("2").data))]).map
          (fun kv => frameVar kv.1 kv.2)).flatten) ∧
    (encodeEntry (("m").data) 6
        [((("B").data), (("2").data)), ((("A").data), (("1").data))]).map
        Prod.fst =
      some (frameVar (("PRIORITY").data) (itoa 6) ++
        frameVar (("MESSAGE").data) (("m").data) ++
        (([((("B").data), (("2").data)),
           ((("A").data), (("1").data))]).map
          (fun kv => frameVar kv.1 kv.2)).flatten) ∧
    (([((("A").data), (("1").data)), ((("B").data), (("2").data))]).map
        (fun kv => frameVar kv.1 kv.2)).Perm
      (([((("B").data), (("2").data)), ((("A").data), (("1").data))]).map
        (fun kv => frameVar kv.1 kv.2)) :=
  c4_amended_deterministic_per_order (("m").data) 6
    [((("A").data), (("1").data)), ((("B").data), (("2").data))]
    [((("B").data), (("2").data)), ((("A").data), (("1").data))]
    (by decide) (List.Perm.swap _ _ _)

end Journal
